import Mathlib

/-
Verification of the FDC+ serial disk server protocol core (fdc.h / fdc.cpp).

The development shallowly embeds the protocol engine of the FDC class:
the 16-bit additive checksum, the drive table, the two-state framer in
FDC::readData, the STAT / READ / WRIT / WSTA handlers, mountDisk and
unmountDisk, updateTrack, and the link supervisor (openPort, closePort,
setBaud, timeoutSlot).

Modelling conventions:
- Machine integers become Nat (or Int where the source uses a signed
  qint16 whose sign matters); overflow is explicit with % 2^16.
- Byte buffers (tmpBuf, inBuf, outBuf, cmdBuf) become List Nat.  The C
  arrays have fixed sizes; the model keeps the lists at the same lengths
  along the real control flow but does not enforce it by type.
- Each QFile becomes a DFile record: an open flag, a size and a byte map.
  The model backing store accepts every write in full, so the short-write
  branch of FDC::writeTrack is unreachable in the model (it is kept in
  the definition for faithfulness to the source text).
- Qt signal emissions and serial-port writes become an explicit event
  list (FEvent) returned next to the successor state; the 2000 ms
  timeout timer restart becomes a timerStart event.
- C arrays indexed out of bounds are undefined behaviour; the model
  stores the per-drive arrays as total functions on Nat so that the
  source control flow can still be followed at out-of-range indices,
  and separate definitions record exactly which indices the source
  dereferences where a claim is about bounds.
-/

set_option linter.unusedVariables false
set_option maxRecDepth 100000

namespace FDCServer

/-! ## Constants from fdc.h -/

def MAX_DRIVE : Nat := 4
def CMD_LEN : Nat := 8
def CRC_LEN : Nat := 2
def CMDBUF_SIZE : Nat := CMD_LEN + CRC_LEN
def TRKBUF_SIZE : Nat := 137 * 32
def STATE_CMD : Nat := 0
def STATE_WRIT : Nat := 1
def STAT_OK : Nat := 0
def STAT_NOT_READY : Nat := 1
def STAT_CHECKSUM_ERR : Nat := 2
def STAT_WRITE_ERR : Nat := 3
def FDC_TIMEOUT : Nat := 2000

/-- ASCII bytes of the command tag STAT. -/
def STAT_TAG : List Nat := [83, 84, 65, 84]

/-- ASCII bytes of the command tag READ. -/
def READ_TAG : List Nat := [82, 69, 65, 68]

/-- ASCII bytes of the command tag WRIT. -/
def WRIT_TAG : List Nat := [87, 82, 73, 84]

/-- ASCII bytes of the command tag WSTA. -/
def WSTA_TAG : List Nat := [87, 83, 84, 65]

/-! ## Checksum (FDC::checkSum, fdc.cpp lines 344-355)

A quint16 accumulator summing quint8 values: a 16-bit wrapping sum. -/

def checkSum (data : List Nat) : Nat :=
  data.foldl (fun acc b => (acc + b) % 65536) 0

/-! ## Little-endian 16-bit words and qint16 reinterpretation -/

/-- The two little-endian bytes of a 16-bit word. -/
def le16 (w : Nat) : List Nat := [w % 256, w / 256 % 256]

/-- Reinterpret a quint16 value as qint16 (two-complement), as the
assignments qint16 trackLen = cmd->param2 in readTrack / writeTrack do. -/
def toInt16 (w : Nat) : Int :=
  if w % 65536 < 32768 then ((w % 65536 : Nat) : Int)
  else ((w % 65536 : Nat) : Int) - 65536

/-- Conversion of a qint16 value back to quint16, as passing the qint16
trackLen to the quint16 size parameter of checkSum does. -/
def q16 (i : Int) : Nat := (i % 65536).toNat

/-! ## Command frames (fdc_command_t, fdc.h lines 26-42)

The source overlays a 10-byte buffer with a struct view; the model keeps
the struct view and serialises explicitly.  param1 doubles as rcode and
param2 as rdata, exactly as the unions do. -/

structure FdcCommand where
  command : List Nat
  param1 : Nat
  param2 : Nat
  checksum : Nat
  deriving DecidableEq

/-- The first CMD_LEN = 8 bytes of a frame (the asBytes view up to the
checksum), the range FDC::checkSum is applied to. -/
def cmdBytes (c : FdcCommand) : List Nat :=
  c.command ++ le16 c.param1 ++ le16 c.param2

/-- The full 10-byte wire image of a frame. -/
def frameBytes (c : FdcCommand) : List Nat :=
  cmdBytes c ++ le16 c.checksum

/-- Decode a 10-byte buffer into the struct view (the cast of cmdBuf to
fdc_command_t in FDC::readData). -/
def parseCmd (b : List Nat) : FdcCommand :=
  { command := b.take 4
  , param1 := b.getD 4 0 + 256 * b.getD 5 0
  , param2 := b.getD 6 0 + 256 * b.getD 7 0
  , checksum := b.getD 8 0 + 256 * b.getD 9 0 }

/-- Build a command frame with a matching checksum, as the FDC peer does. -/
def mkCmd (tag : List Nat) (p1 p2 : Nat) : FdcCommand :=
  { command := tag, param1 := p1, param2 := p2
  , checksum := checkSum (tag ++ le16 p1 ++ le16 p2) }

/-- The rcode word of a serialised response frame: bytes 4 and 5,
little endian (octet values, so the | of the source is addition). -/
def frameRcode (b : List Nat) : Nat := b.getD 4 0 + 256 * b.getD 5 0

/-! ## Backing disk-image files (QFile) -/

structure DFile where
  isOpen : Bool
  size : Nat
  data : Nat → Nat

/-- QFile::read of len bytes after a seek to pos: returns the bytes that
exist, a short (possibly empty) list when pos + len passes the end. -/
def fileReadBytes (f : DFile) (pos len : Nat) : List Nat :=
  (List.range (min len (f.size - pos))).map (fun i => f.data (pos + i))

/-- QFile::write of a byte list after a seek to pos: the model backing
store accepts the whole list, growing the file if needed. -/
def fileWrite (f : DFile) (pos : Nat) (bytes : List Nat) : DFile :=
  { isOpen := f.isOpen
  , size := max f.size (pos + bytes.length)
  , data := fun o =>
      if pos ≤ o ∧ o < pos + bytes.length then bytes.getD (o - pos) 0
      else f.data o }

/-- A closed, empty backing file (the fresh QFile objects of the
constructor). -/
def initFile : DFile := { isOpen := false, size := 0, data := fun _ => 0 }

/-! ## Events: Qt signal emissions, serial writes, timer restarts -/

inductive FEvent where
  | statusChanged (s : String)
  | errorMessage (title msg : String)
  | trackChanged (drive track : Nat)
  | headChanged (drive : Nat) (loaded : Bool)
  | driveChanged (drive : Nat)
  | mountChanged (drive : Nat) (mounted : Bool) (filename : String)
      (tracks : Nat) (size : String)
  | serialWrite (bytes : List Nat)
  | timerStart (ms : Nat)
  deriving DecidableEq

/-- The byte sequences written to the serial port within an event list,
in order. -/
def writesOf (evs : List FEvent) : List (List Nat) :=
  evs.filterMap (fun e => match e with
    | FEvent.serialWrite bs => some bs
    | _ => none)

/-! ## The FDC state (the private members of class FDC) -/

structure FDCState where
  driveSelected : Nat
  headStatus : Nat → Nat
  curTrack : Nat → Nat
  maxTrack : Nat → Nat
  driveFile : Nat → DFile
  statPkts : Nat
  readPkts : Nat
  writePkts : Nat
  crcErrs : Nat
  outPkts : Nat
  connected : Bool
  portOpen : Bool
  state : Nat
  tmpBuf : List Nat
  cmdBuf : List Nat
  inBuf : List Nat
  outBuf : List Nat

/-- The state after the FDC constructor (fdc.cpp lines 115-148).  The C
byte buffers start indeterminate; the model zeroes them. -/
def initState : FDCState :=
  { driveSelected := 255
  , headStatus := fun _ => 0
  , curTrack := fun _ => 0
  , maxTrack := fun _ => 77
  , driveFile := fun _ => initFile
  , statPkts := 0, readPkts := 0, writePkts := 0, crcErrs := 0, outPkts := 0
  , connected := false
  , portOpen := false
  , state := STATE_CMD
  , tmpBuf := []
  , cmdBuf := List.replicate CMDBUF_SIZE 0
  , inBuf := List.replicate (TRKBUF_SIZE + CRC_LEN) 0
  , outBuf := List.replicate (TRKBUF_SIZE + CRC_LEN) 0 }

/-! ## updateTrack (fdc.cpp lines 519-538) -/

def updateTrack (s : FDCState) (drive track : Nat) :
    FDCState × List FEvent × Nat :=
  if MAX_DRIVE ≤ drive then
    (s, [FEvent.errorMessage "updateTrack" "Drive number is out of range"],
     track)
  else
    let track := if (s.driveFile drive).isOpen then track else 0
    if track ≠ s.curTrack drive then
      ({ s with curTrack := fun d => if d = drive then track else s.curTrack d },
       [FEvent.trackChanged drive track], track)
    else (s, [], track)

/-! ## statResponse (fdc.cpp lines 357-381)

The handler rewrites the received frame in place (cmd points into
cmdBuf): rcode := STAT_OK, rdata := one mount bit per drive, fresh
checksum; then writes the 10 bytes, restarts the timeout timer and
flips connected to true (emitting Connected) if it was false. -/

def statResponse (s : FDCState) (c : FdcCommand) : FDCState × List FEvent :=
  let mask := (List.range MAX_DRIVE).foldl
    (fun m d => m ||| (if (s.driveFile d).isOpen then 1 <<< d else 0)) 0
  let resp : FdcCommand :=
    { command := c.command, param1 := STAT_OK, param2 := mask
    , checksum := checkSum (c.command ++ le16 STAT_OK ++ le16 mask) }
  let p :=
    if s.connected = false then
      ({ s with connected := true },
       [FEvent.serialWrite (frameBytes resp), FEvent.timerStart FDC_TIMEOUT,
        FEvent.statusChanged "Connected"])
    else
      (s, [FEvent.serialWrite (frameBytes resp), FEvent.timerStart FDC_TIMEOUT])
  ({ p.1 with cmdBuf := frameBytes resp, outPkts := p.1.outPkts + 1 }, p.2)

/-! ## The STAT dispatch branch of FDC::readData (fdc.cpp lines 278-307)

The source tests newDrive <= MAX_DRIVE (admitting index MAX_DRIVE) and
reads headStatus at driveSelected even when driveSelected is 0xff; the
model follows both literally (the per-drive arrays are total maps). -/

def statHandler (s : FDCState) (c : FdcCommand) : FDCState × List FEvent :=
  let s := { s with statPkts := s.statPkts + 1 }
  let newDrive := c.param1 % 256
  let p1 :=
    if newDrive ≤ MAX_DRIVE ∧ s.driveSelected ≠ newDrive then
      if s.headStatus s.driveSelected ≠ 0 then
        ({ s with headStatus := fun d =>
             if d = s.driveSelected then 0 else s.headStatus d },
         [FEvent.headChanged s.driveSelected false,
          FEvent.driveChanged newDrive])
      else (s, [FEvent.driveChanged newDrive])
    else (s, [])
  let s1 := p1.1
  let p2 :=
    if newDrive ≤ MAX_DRIVE then
      let msb := c.param1 / 256
      let q :=
        if s1.headStatus newDrive ≠ msb then
          ({ s1 with headStatus := fun d =>
               if d = newDrive then msb else s1.headStatus d },
           [FEvent.headChanged newDrive (msb != 0)])
        else (s1, [])
      let u := updateTrack q.1 newDrive c.param2
      (u.1, q.2 ++ u.2.1)
    else (s1, [])
  let s2 := { p2.1 with driveSelected := newDrive }
  let r := statResponse s2 c
  (r.1, p1.2 ++ p2.2 ++ r.2)

/-! ## readTrack (fdc.cpp lines 383-425)

trackLen is a qint16 copy of param2; the clamp compares it against the
unsigned sizeof(outBuf), so a negative value also clamps to 4386.  On a
short read the checksum variable keeps its initial value 0 and the
trackLen bytes of outBuf (read bytes, then stale contents) are still
transmitted. -/

def readTrack (s : FDCState) (c : FdcCommand) : FDCState × List FEvent :=
  let driveNum := c.param1 / 4096
  let trackNum0 := c.param1 % 4096
  let tl0 : Int := toInt16 c.param2
  if MAX_DRIVE ≤ driveNum then
    (s, [FEvent.errorMessage "READ" "Drive number is out of range"])
  else
    let trackLen : Nat :=
      if tl0 < 0 ∨ ((TRKBUF_SIZE + CRC_LEN : Nat) : Int) < tl0 then
        TRKBUF_SIZE + CRC_LEN
      else tl0.toNat
    let u := updateTrack s driveNum trackNum0
    let s1 := u.1
    let trackNum := u.2.2
    let f := s1.driveFile driveNum
    let pos := trackNum * trackLen
    let bytesRead := min trackLen (f.size - pos)
    let readBytes := fileReadBytes f pos trackLen
    let outB := readBytes ++ s1.outBuf.drop bytesRead
    let checksum := if bytesRead ≠ trackLen then 0 else checkSum (outB.take trackLen)
    ({ s1 with outBuf := outB, outPkts := s1.outPkts + 1 },
     u.2.1 ++ [FEvent.serialWrite (outB.take trackLen),
               FEvent.serialWrite (le16 checksum),
               FEvent.timerStart FDC_TIMEOUT])

/-! ## writeResponse (WRIT phase 1, fdc.cpp lines 427-452)

The command bytes are copied to outBuf first, so cmdBuf keeps the
original WRIT frame for phase 2; the response reuses the request tag
and param2, with rcode OK or NOT_READY. -/

def writeResponse (s : FDCState) (c : FdcCommand) : FDCState × List FEvent :=
  let driveNum := c.param1 / 4096
  if MAX_DRIVE ≤ driveNum then
    (s, [FEvent.errorMessage "WRIT" "Drive number is out of range"])
  else
    let rcode := if (s.driveFile driveNum).isOpen then STAT_OK else STAT_NOT_READY
    let resp : FdcCommand :=
      { command := c.command, param1 := rcode, param2 := c.param2
      , checksum := checkSum (c.command ++ le16 rcode ++ le16 c.param2) }
    ({ s with outBuf := frameBytes resp ++ s.outBuf.drop CMDBUF_SIZE },
     [FEvent.serialWrite (frameBytes resp), FEvent.timerStart FDC_TIMEOUT])

/-! ## The payload trailer read of writeTrack (fdc.cpp line 458)

The 16-bit trailer is read at inBuf indices trackLen and trackLen + 1
BEFORE the drive-range guard and before the trackLen clamp; for octets
the | with the shifted high byte is addition. -/

def wstaTrailer (inB : List Nat) (tl : Nat) : Nat :=
  inB.getD tl 0 + 256 * inB.getD (tl + 1) 0

/-- The inBuf indices FDC::writeTrack dereferences to extract the payload
trailer (fdc.cpp line 458), as a function of the controller-supplied
param2 word; trackLen is the qint16 view of param2 and no bound has been
checked at this point, so the indices range over all of [-32768, 32768]. -/
def wstaTrailerIndices (param2 : Nat) : List Int :=
  [toInt16 param2, toInt16 param2 + 1]

/-! ## writeTrack (WSTA, WRIT phase 2, fdc.cpp lines 454-517)

Note the order in the source: trailer extraction at inBuf[trackLen]
first, then the range guard, then NOT_READY / CHECKSUM_ERR tests, and
only then the clamp of trackLen to sizeof(inBuf).  The response frame is
written into cmdBuf (cmd points there) and copied to outBuf; no timeout
timer restart occurs in this handler. -/

def writeTrack (s : FDCState) (c : FdcCommand) : FDCState × List FEvent :=
  let driveNum := c.param1 / 4096
  let trackNum := c.param1 % 4096
  let tl : Int := toInt16 c.param2
  let trailer := wstaTrailer s.inBuf tl.toNat
  if MAX_DRIVE ≤ driveNum then
    (s, [FEvent.errorMessage "WRIT" "Drive number is out of range"])
  else
    let r :=
      if (s.driveFile driveNum).isOpen = false then
        (s, STAT_NOT_READY, ([] : List FEvent))
      else if trailer ≠ checkSum (s.inBuf.take (q16 tl)) then
        ({ s with crcErrs := s.crcErrs + 1 }, STAT_CHECKSUM_ERR,
         ([] : List FEvent))
      else
        let tlc : Nat :=
          if tl < 0 ∨ ((TRKBUF_SIZE + CRC_LEN : Nat) : Int) < tl then
            TRKBUF_SIZE + CRC_LEN
          else tl.toNat
        let u := updateTrack s driveNum trackNum
        let data := s.inBuf.take tlc
        let f2 := fileWrite (u.1.driveFile driveNum) (u.2.2 * tlc) data
        let rcode := if data.length ≠ tlc then STAT_WRITE_ERR else STAT_OK
        ({ u.1 with driveFile := fun d =>
             if d = driveNum then f2 else u.1.driveFile d },
         rcode, u.2.1)
    let resp : FdcCommand :=
      { command := WSTA_TAG, param1 := r.2.1, param2 := c.param2
      , checksum := checkSum (WSTA_TAG ++ le16 r.2.1 ++ le16 c.param2) }
    ({ r.1 with cmdBuf := frameBytes resp
              , outBuf := frameBytes resp ++ r.1.outBuf.drop CMDBUF_SIZE
              , outPkts := r.1.outPkts + 1 },
     r.2.2 ++ [FEvent.serialWrite (frameBytes resp)])

/-! ## The framer, FDC::readData (fdc.cpp lines 246-342)

One invocation of the readyRead slot with a burst of available bytes.
If the burst would overflow tmpBuf, the port and the staging buffer are
cleared and an error is emitted.  In STATE_CMD a complete 10-byte frame
is checksum-validated and dispatched; in STATE_WRIT the handler fires
only when exactly TRKBUF_SIZE + CRC_LEN bytes have accumulated. -/

def readData (s : FDCState) (inc : List Nat) : FDCState × List FEvent :=
  if (TRKBUF_SIZE + CRC_LEN) - s.tmpBuf.length < inc.length then
    ({ s with tmpBuf := [] }, [FEvent.errorMessage "readData" "tmpBuf Full"])
  else
    let buf := s.tmpBuf ++ inc
    let s := { s with tmpBuf := buf }
    if s.state = STATE_CMD then
      if buf.length = CMDBUF_SIZE then
        let s := { s with cmdBuf := buf }
        let c := parseCmd buf
        if c.checksum = checkSum (buf.take CMD_LEN) then
          let d :=
            if buf.take 4 = STAT_TAG then statHandler s c
            else if buf.take 4 = READ_TAG then
              readTrack { s with readPkts := s.readPkts + 1 } c
            else if buf.take 4 = WRIT_TAG then
              let w := writeResponse s c
              ({ w.1 with writePkts := w.1.writePkts + 1
                        , state := STATE_WRIT }, w.2)
            else (s, [])
          ({ d.1 with tmpBuf := [] }, d.2)
        else
          ({ s with crcErrs := s.crcErrs + 1, tmpBuf := [] }, [])
      else (s, [])
    else if s.state = STATE_WRIT then
      if buf.length = TRKBUF_SIZE + CRC_LEN then
        let s := { s with inBuf := buf }
        let w := writeTrack s (parseCmd s.cmdBuf)
        ({ w.1 with tmpBuf := [], state := STATE_CMD }, w.2)
      else (s, [])
    else (s, [])

/-! ## mountDisk (fdc.cpp lines 540-579)

There is no drive-range guard in the source: the slot's file is closed
and reopened, the geometry inferred from the file size, updateTrack
called (which does guard) and mountChanged emitted.  openOk abstracts
whether QFile::open succeeds; fsize and fdata describe the file found
at the given name. -/

def mountDisk (s : FDCState) (drive : Nat) (filename : String)
    (openOk : Bool) (fsize : Nat) (fdata : Nat → Nat) :
    FDCState × List FEvent × Bool :=
  let s0 :=
    if (s.driveFile drive).isOpen then
      { s with driveFile := fun d =>
          if d = drive then
            { s.driveFile d with isOpen := false }
          else s.driveFile d }
    else s
  if openOk then
    let g : Nat × String :=
      if fsize = 76800 then (34, "75K")
      else if fsize = 337664 then (76, "330K")
      else if fsize = 8978432 then (2047, "8MB")
      else (2047, "???")
    let s1 := { s0 with
      driveFile := fun d =>
        if d = drive then { isOpen := true, size := fsize, data := fdata }
        else s0.driveFile d
    , maxTrack := fun d => if d = drive then g.1 else s0.maxTrack d }
    let u := updateTrack s1 drive 0
    (u.1, u.2.1 ++ [FEvent.mountChanged drive true filename g.1 g.2], true)
  else (s0, [], false)

/-! ## unmountDisk (fdc.cpp lines 581-594) -/

def unmountDisk (s : FDCState) (drive : Nat) : FDCState × List FEvent :=
  let p :=
    if (s.driveFile drive).isOpen then
      let u := updateTrack s drive 0
      ({ u.1 with driveFile := fun d =>
           if d = drive then { u.1.driveFile d with isOpen := false }
           else u.1.driveFile d }, u.2.1)
    else (s, [])
  (p.1, p.2 ++ [FEvent.mountChanged drive false "" 0 ""])

/-! ## Link supervisor (fdc.cpp lines 155-239) -/

def closePortSlot (s : FDCState) : FDCState × List FEvent :=
  if s.portOpen then
    ({ s with portOpen := false, connected := false },
     [FEvent.statusChanged "Offline"])
  else (s, [])

def setBaudSlot (s : FDCState) (ok : Bool) : FDCState × List FEvent × Bool :=
  if ok then (s, [], true)
  else
    (s, [FEvent.errorMessage "COM Port Error" "Could not set baudrate",
         FEvent.statusChanged "Offline"], false)

/-- FDC::openPort.  openOk abstracts QSerialPort::open succeeding and
baudOk abstracts setBaudRate succeeding.  On full success the connected
flag is raised and Online emitted before any byte has been received. -/
def openPort (s : FDCState) (openOk baudOk : Bool) :
    FDCState × List FEvent × Bool :=
  let p := if s.portOpen then closePortSlot s else (s, [])
  if openOk then
    let s2 := { p.1 with portOpen := true }
    let b := setBaudSlot s2 baudOk
    if b.2.2 = false then
      let cl := closePortSlot b.1
      (cl.1, p.2 ++ b.2.1 ++ cl.2, false)
    else
      ({ b.1 with connected := true },
       p.2 ++ b.2.1 ++ [FEvent.statusChanged "Online"], true)
  else (p.1, p.2, false)

/-- FDC::timeoutSlot (fdc.cpp lines 219-239): on expiry with the port
open, drop the staging buffer and, if connected, clear the flag and
report the communications timeout; always fall back to STATE_CMD. -/
def timeoutSlot (s : FDCState) : FDCState × List FEvent :=
  if s.portOpen then
    let s1 := { s with tmpBuf := [] }
    let p :=
      if s1.connected then
        ({ s1 with connected := false },
         [FEvent.statusChanged "Communications timeout"])
      else (s1, [])
    ({ p.1 with state := STATE_CMD }, p.2)
  else ({ s with state := STATE_CMD }, [FEvent.statusChanged "Offline"])

/-! ## Core operations as a step relation

The externally triggered operations of the core: the UI calls mountDisk
and unmountDisk, and the framer delivers complete STAT / READ / WRIT
frames and WRIT payloads (this mirrors the dispatch structure of
FDC::readData at the granularity of whole frames). -/

inductive CoreOp where
  | mount (drive : Nat) (filename : String) (openOk : Bool)
      (fsize : Nat) (fdata : Nat → Nat)
  | unmount (drive : Nat)
  | statFrame (c : FdcCommand)
  | readFrame (c : FdcCommand)
  | writFrame (c : FdcCommand)
  | payload (bytes : List Nat)

def stepOp (s : FDCState) (op : CoreOp) : FDCState × List FEvent :=
  match op with
  | CoreOp.mount d fn ok fs fd =>
      let r := mountDisk s d fn ok fs fd
      (r.1, r.2.1)
  | CoreOp.unmount d => unmountDisk s d
  | CoreOp.statFrame c => statHandler s c
  | CoreOp.readFrame c => readTrack { s with readPkts := s.readPkts + 1 } c
  | CoreOp.writFrame c =>
      let w := writeResponse s c
      ({ w.1 with writePkts := w.1.writePkts + 1, state := STATE_WRIT }, w.2)
  | CoreOp.payload bytes =>
      let s1 := { s with inBuf := bytes }
      let w := writeTrack s1 (parseCmd s.cmdBuf)
      ({ w.1 with tmpBuf := [], state := STATE_CMD }, w.2)

/-- The spec invariant: an unmounted drive slot has current track 0. -/
def Inv (s : FDCState) : Prop :=
  ∀ d, d < MAX_DRIVE → (s.driveFile d).isOpen = false → s.curTrack d = 0

/-- The headStatus indices the STAT branch of FDC::readData dereferences
(fdc.cpp lines 283-296): the previously selected drive inside the block
guarded by newDrive <= MAX_DRIVE and driveSelected != newDrive, and the
newly selected drive inside the block guarded by newDrive <= MAX_DRIVE. -/
def statHeadIndices (driveSel newDrive : Nat) : List Nat :=
  (if newDrive ≤ MAX_DRIVE ∧ driveSel ≠ newDrive then [driveSel] else []) ++
  (if newDrive ≤ MAX_DRIVE then [newDrive] else [])

/-! ## Basic lemmas about the embedded operations -/

theorem checkSum_aux (l : List Nat) (acc : Nat) (h : acc < 65536) :
    l.foldl (fun a b => (a + b) % 65536) acc < 65536 := by
  induction l generalizing acc with
  | nil => exact h
  | cons x xs ih => exact ih _ (Nat.mod_lt _ (by omega))

theorem checkSum_lt (l : List Nat) : checkSum l < 65536 :=
  checkSum_aux l 0 (by omega)

theorem toInt16_of_lt (w : Nat) (h : w < 32768) : toInt16 w = (w : Int) := by
  unfold toInt16
  rw [Nat.mod_eq_of_lt (by omega)]
  rw [if_pos h]

theorem q16_ofNat (w : Nat) (h : w < 65536) : q16 ((w : Nat) : Int) = w := by
  unfold q16
  rw [Int.emod_eq_of_lt (by omega) (by exact_mod_cast h)]
  simp

theorem updateTrack_driveFile (s : FDCState) (a b : Nat) :
    (updateTrack s a b).1.driveFile = s.driveFile := by
  unfold updateTrack
  split
  · rfl
  · split <;> (dsimp only; split <;> rfl)

theorem updateTrack_inBuf (s : FDCState) (a b : Nat) :
    (updateTrack s a b).1.inBuf = s.inBuf := by
  unfold updateTrack
  split
  · rfl
  · split <;> (dsimp only; split <;> rfl)

theorem updateTrack_outBuf (s : FDCState) (a b : Nat) :
    (updateTrack s a b).1.outBuf = s.outBuf := by
  unfold updateTrack
  split
  · rfl
  · split <;> (dsimp only; split <;> rfl)

theorem updateTrack_cmdBuf (s : FDCState) (a b : Nat) :
    (updateTrack s a b).1.cmdBuf = s.cmdBuf := by
  unfold updateTrack
  split
  · rfl
  · split <;> (dsimp only; split <;> rfl)

theorem updateTrack_crcErrs (s : FDCState) (a b : Nat) :
    (updateTrack s a b).1.crcErrs = s.crcErrs := by
  unfold updateTrack
  split
  · rfl
  · split <;> (dsimp only; split <;> rfl)

/-- The track value updateTrack returns: the input, coerced to 0 on an
unmounted in-range drive. -/
theorem updateTrack_track (s : FDCState) (a b : Nat) :
    (updateTrack s a b).2.2 =
      if MAX_DRIVE ≤ a then b
      else if (s.driveFile a).isOpen then b else 0 := by
  unfold updateTrack
  split
  · rfl
  · split <;> (dsimp only; split <;> rfl)

/-- The curTrack table after updateTrack, pointwise. -/
theorem updateTrack_curTrack (s : FDCState) (a b d : Nat) :
    (updateTrack s a b).1.curTrack d =
      if MAX_DRIVE ≤ a then s.curTrack d
      else if d = a then (if (s.driveFile a).isOpen then b else 0)
      else s.curTrack d := by
  unfold updateTrack
  split
  · rfl
  · split
    all_goals
      dsimp only
      split
      · rfl
      · rename_i hne
        simp only [ne_eq, not_not] at hne
        by_cases hda : d = a
        · subst hda
          rw [if_pos rfl]
          exact hne.symm
        · rw [if_neg hda]

theorem updateTrack_track_open (s : FDCState) (a b : Nat)
    (h1 : a < MAX_DRIVE) (h2 : (s.driveFile a).isOpen = true) :
    (updateTrack s a b).2.2 = b := by
  rw [updateTrack_track, if_neg (by omega), h2]
  simp

theorem updateTrack_writesOf (s : FDCState) (a b : Nat) :
    writesOf (updateTrack s a b).2.1 = [] := by
  unfold updateTrack
  split
  · rfl
  · split <;> (dsimp only; split <;> rfl)

theorem updateTrack_no_timer (s : FDCState) (a b n : Nat) :
    FEvent.timerStart n ∉ (updateTrack s a b).2.1 := by
  unfold updateTrack
  split
  · simp
  · split <;> (dsimp only; split <;> simp)

theorem Inv_of_fields (s t : FDCState)
    (hf : s.driveFile = t.driveFile) (hc : s.curTrack = t.curTrack)
    (h : Inv t) : Inv s := by
  intro d hd hcl
  rw [hc]
  exact h d hd (by rw [← hf]; exact hcl)

theorem updateTrack_inv (s : FDCState) (a b : Nat) (h : Inv s) :
    Inv (updateTrack s a b).1 := by
  intro d hd hcl
  rw [updateTrack_driveFile] at hcl
  rw [updateTrack_curTrack]
  by_cases hma : MAX_DRIVE ≤ a
  · rw [if_pos hma]
    exact h d hd hcl
  · rw [if_neg hma]
    by_cases hda : d = a
    · rw [if_pos hda]
      rw [hda] at hcl
      rw [hcl]
      simp
    · rw [if_neg hda]
      exact h d hd hcl

theorem frameRcode_frameBytes (c : FdcCommand) (h4 : c.command.length = 4)
    (h : c.param1 < 65536) : frameRcode (frameBytes c) = c.param1 := by
  have e1 : frameBytes c
      = c.command ++ (le16 c.param1 ++ (le16 c.param2 ++ le16 c.checksum)) := by
    unfold frameBytes cmdBytes
    rw [List.append_assoc, List.append_assoc]
  have e4 : (frameBytes c).getD 4 0
      = (le16 c.param1 ++ (le16 c.param2 ++ le16 c.checksum)).getD 0 0 := by
    rw [e1]
    rw [List.getD_append_right c.command
        (le16 c.param1 ++ (le16 c.param2 ++ le16 c.checksum)) 0 4 (by omega)]
    rw [h4]
  have e5 : (frameBytes c).getD 5 0
      = (le16 c.param1 ++ (le16 c.param2 ++ le16 c.checksum)).getD 1 0 := by
    rw [e1]
    rw [List.getD_append_right c.command
        (le16 c.param1 ++ (le16 c.param2 ++ le16 c.checksum)) 0 5 (by omega)]
    rw [h4]
  unfold frameRcode
  rw [e4, e5]
  unfold le16
  simp only [List.cons_append, List.getD_cons_zero, List.getD_cons_succ]
  omega

theorem fileReadBytes_fileWrite (f : DFile) (pos : Nat) (bytes : List Nat) :
    fileReadBytes (fileWrite f pos bytes) pos bytes.length = bytes := by
  unfold fileReadBytes fileWrite
  simp only
  have hmin : min bytes.length (max f.size (pos + bytes.length) - pos)
      = bytes.length := by omega
  rw [hmin]
  apply List.ext_getElem
  · simp
  · intro i h1 h2
    simp only [List.getElem_map, List.getElem_range]
    rw [if_pos (by constructor <;> omega)]
    rw [Nat.add_sub_cancel_left]
    exact List.getD_eq_getElem _ _ h2

theorem writesOf_append (a b : List FEvent) :
    writesOf (a ++ b) = writesOf a ++ writesOf b := by
  unfold writesOf
  exact List.filterMap_append a b _

/-! ## Concrete states used to exercise the handlers -/

/-- A server that has answered a WRIT frame for drive 1, track 10,
trackLen 137 and is waiting for the payload: state STATE_WRIT and the
WRIT frame retained in cmdBuf.  param1 = (1 << 12) | 10 = 4106. -/
def c1State : FDCState :=
  { initState with
      state := STATE_WRIT
      cmdBuf := frameBytes (mkCmd WRIT_TAG 4106 137) }

/-- A one-byte open backing file holding the byte 5. -/
def oneByteFile : DFile :=
  { isOpen := true, size := 1, data := fun o => if o = 0 then 5 else 0 }

/-- An open, empty backing file. -/
def emptyOpenFile : DFile :=
  { isOpen := true, size := 0, data := fun _ => 0 }

/-- A mounted drive 0 whose backing file is a single byte 5 (so any
two-byte track read comes back short). -/
def shortReadState : FDCState :=
  { initState with
      driveFile := fun d => if d = 0 then oneByteFile else initFile }

/-- A mounted, empty drive 0 with a two-byte payload 1, 2 staged in
inBuf whose trailer bytes encode 7 instead of the correct sum 3. -/
def badTrailerState : FDCState :=
  { initState with
      driveFile := fun d => if d = 0 then emptyOpenFile else initFile
      inBuf := [1, 2, 7, 0] }

/-- A mounted, empty drive 0 with a two-byte payload 1, 2 staged in
inBuf followed by its correct little-endian sum16 trailer 3. -/
def c2State : FDCState :=
  { initState with
      driveFile := fun d => if d = 0 then emptyOpenFile else initFile
      inBuf := [1, 2, 3, 0] }

/-- Drive 0 mounted on a 75K image. -/
def c5Mounted : FDCState :=
  (stepOp initState (CoreOp.mount 0 "a" true 76800 (fun _ => 0))).1

/-- A STAT frame has reported drive 0 on track 5. -/
def c5Tracked : FDCState :=
  (stepOp c5Mounted (CoreOp.statFrame (mkCmd STAT_TAG 0 5))).1

/-- A second mountDisk on drive 0 whose open fails: the slot is closed
but curTrack keeps the stale value 5. -/
def c5FailState : FDCState :=
  (stepOp c5Tracked (CoreOp.mount 0 "b" false 0 (fun _ => 0))).1

/-! ## Claim theorems -/

/-- Claim C3 (refutation of the claimed bound): the WSTA trailer bytes
are read at inBuf indices trackLen and trackLen + 1 before any bound on
trackLen is checked.  For the controller-supplied param2 = 4385 the
indices are 4385 and 4386, and 4386 is outside inBuf (whose
TRKBUF_SIZE + CRC_LEN = 4386 entries have indices 0..4385), while the
claimed constraint trackLen ≤ TRKBUF_SIZE fails; for param2 = 0x8000
the qint16 trackLen is even negative. -/
theorem c3_trailer_read_out_of_bounds :
    wstaTrailerIndices 4385 = [(4385 : Int), 4386] ∧
    ¬ ((4386 : Int) < ((TRKBUF_SIZE + CRC_LEN : Nat) : Int)) ∧
    ¬ (4385 ≤ TRKBUF_SIZE) ∧
    wstaTrailerIndices 32768 = [(-32768 : Int), -32767] := by
  constructor
  · decide
  constructor
  · decide
  constructor
  · decide
  · decide

/-- Claim C4 (refutation): the STAT handler's range test admits index
MAX_DRIVE itself (statHeadIndices 255 4 contains 4), and with no drive
previously selected (driveSelected = 0xff, as after the constructor) the
drive-switch block dereferences headStatus 255; concretely, a STAT frame
with param1 = 0x0104 makes the handler write headStatus at index
MAX_DRIVE = 4. -/
theorem c4_stat_head_access_out_of_bounds :
    statHeadIndices 255 0 = [255, 0] ∧
    statHeadIndices 255 4 = [255, 4] ∧
    ¬ (∀ i ∈ statHeadIndices 255 4, i < MAX_DRIVE) ∧
    ¬ (∀ i ∈ statHeadIndices 255 0, i < MAX_DRIVE) ∧
    initState.driveSelected = 255 ∧
    (statHandler initState (mkCmd STAT_TAG 260 0)).1.headStatus MAX_DRIVE = 1 := by
  refine ⟨by decide, by decide, by decide, by decide, by decide, by decide⟩

/-- Claim C6 (refutation): mountDisk performs no drive-range check.
Called with drive = MAX_DRIVE = 4 and an openable 76800-byte file it
opens the file on the out-of-range slot, rewrites that slot's geometry,
emits mountChanged and returns true; the only error notification comes
from the inner updateTrack call, after the file is already open. -/
theorem c6_mount_out_of_range_not_rejected :
    (mountDisk initState MAX_DRIVE "oob.dsk" true 76800 (fun _ => 0)).2.2 = true ∧
    ((mountDisk initState MAX_DRIVE "oob.dsk" true 76800 (fun _ => 0)).1.driveFile
      MAX_DRIVE).isOpen = true ∧
    (mountDisk initState MAX_DRIVE "oob.dsk" true 76800 (fun _ => 0)).1.maxTrack
      MAX_DRIVE = 34 ∧
    FEvent.mountChanged MAX_DRIVE true "oob.dsk" 34 "75K"
      ∈ (mountDisk initState MAX_DRIVE "oob.dsk" true 76800 (fun _ => 0)).2.1 := by
  refine ⟨by decide, by decide, by decide, by decide⟩

/-- Claim C1 (counterexample): with trackLen = 137 remembered from the
WRIT frame, feeding exactly 137 + 2 = 139 payload bytes does NOT produce
the WSTA response: the framer stays in the write-payload state and emits
nothing, because FDC::readData fires the handler only at
TRKBUF_SIZE + CRC_LEN = 4386 buffered bytes. -/
theorem c1_counterexample :
    c1State.state = STATE_WRIT ∧
    c1State.tmpBuf = [] ∧
    (parseCmd c1State.cmdBuf).param2 = 137 ∧
    (readData c1State (List.replicate 139 0)).1.state = STATE_WRIT ∧
    (readData c1State (List.replicate 139 0)).2 = [] := by
  refine ⟨by decide, by decide, by decide, by decide, by decide⟩

/-- Claim C5 (counterexample): mount drive 0, let a STAT frame move it
to track 5, then re-mount with a failing open.  The slot ends closed
with curTrack still 5: the invariant of the claim fails exactly in the
failed re-mount case the claim calls out. -/
theorem c5_counterexample :
    (c5FailState.driveFile 0).isOpen = false ∧
    c5FailState.curTrack 0 = 5 ∧
    ¬ Inv c5FailState := by
  refine ⟨by decide, by decide, fun h => ?_⟩
  exact absurd (h 0 (by decide) (by decide)) (by decide)

/-- Claim C8 (counterexample): the WSTA phase-2 handler transmits its
response frame but, unlike the other three outbound paths, does not
restart the 2000 ms inactivity timer. -/
theorem c8_counterexample :
    writesOf (writeTrack initState (mkCmd WRIT_TAG 0 2)).2 ≠ [] ∧
    FEvent.timerStart FDC_TIMEOUT ∉ (writeTrack initState (mkCmd WRIT_TAG 0 2)).2 := by
  refine ⟨by decide, by decide⟩

/-- Claim C9 (counterexample): READ of two bytes from a mounted one-byte
file reads back the single byte 5 short; the server transmits the two
bytes 5, 0 (read byte then stale buffer) followed by the trailer 0, 0 -
not the sum16 of the bytes actually read, which would be 5, 0. -/
theorem c9_counterexample :
    fileReadBytes (shortReadState.driveFile 0) 0 2 = [5] ∧
    writesOf (readTrack shortReadState (mkCmd READ_TAG 0 2)).2
      = [[5, 0], [0, 0]] ∧
    le16 (checkSum [5]) ≠ [0, 0] := by
  refine ⟨by decide, by decide, by decide⟩

/-- Claim C10: immediately after a successful openPort the connected
flag is already true and statusChanged Online has been emitted, even
though no byte has been received; consequently a timer expiry with the
controller silent emits statusChanged Communications timeout and
clears connected, rather than leaving the status silent. -/
theorem c10_openPort_online_then_timeout (s : FDCState) :
    (openPort s true true).2.2 = true ∧
    (openPort s true true).1.connected = true ∧
    FEvent.statusChanged "Online" ∈ (openPort s true true).2.1 ∧
    (timeoutSlot (openPort s true true).1).2
      = [FEvent.statusChanged "Communications timeout"] ∧
    (timeoutSlot (openPort s true true).1).1.connected = false := by
  unfold openPort setBaudSlot closePortSlot timeoutSlot
  by_cases hp : s.portOpen
  · simp [hp]
  · simp [hp]

/-- Claim C7: a completed write payload whose 16-bit trailer differs
from the sum16 of the payload bytes, on a mounted in-range drive,
yields a WSTA response carrying rcode = STAT_CHECKSUM_ERR = 0x0002,
increments crcErrs by exactly one, and leaves every backing file
untouched (the file table is unchanged). -/
theorem c7_checksum_error (s : FDCState) (c : FdcCommand)
    (hd : c.param1 / 4096 < MAX_DRIVE)
    (hopen : (s.driveFile (c.param1 / 4096)).isOpen = true)
    (hbad : wstaTrailer s.inBuf (toInt16 c.param2).toNat
        ≠ checkSum (s.inBuf.take (q16 (toInt16 c.param2)))) :
    frameRcode (writeTrack s c).1.cmdBuf = STAT_CHECKSUM_ERR ∧
    (writeTrack s c).1.crcErrs = s.crcErrs + 1 ∧
    (writeTrack s c).1.driveFile = s.driveFile ∧
    (writeTrack s c).2 = [FEvent.serialWrite ((writeTrack s c).1.cmdBuf)] := by
  unfold writeTrack
  dsimp only
  rw [if_neg (show ¬ MAX_DRIVE ≤ c.param1 / 4096 by omega)]
  rw [if_neg (show ¬ ((s.driveFile (c.param1 / 4096)).isOpen = false) by
    rw [hopen]; simp)]
  rw [if_pos hbad]
  refine ⟨?_, rfl, rfl, rfl⟩
  exact frameRcode_frameBytes _ (show ([87, 83, 84, 65] : List Nat).length = 4 from rfl)
    (show (2 : Nat) < 65536 by omega)

/-- Claim C7 witness: drive 0 mounted on an empty file, payload 1, 2
with trailer 7 where the correct sum is 3. -/
theorem c7_checksum_error_witness :
    frameRcode (writeTrack badTrailerState (mkCmd WRIT_TAG 0 2)).1.cmdBuf
      = STAT_CHECKSUM_ERR ∧
    (writeTrack badTrailerState (mkCmd WRIT_TAG 0 2)).1.crcErrs
      = badTrailerState.crcErrs + 1 ∧
    (writeTrack badTrailerState (mkCmd WRIT_TAG 0 2)).1.driveFile
      = badTrailerState.driveFile ∧
    (writeTrack badTrailerState (mkCmd WRIT_TAG 0 2)).2
      = [FEvent.serialWrite ((writeTrack badTrailerState (mkCmd WRIT_TAG 0 2)).1.cmdBuf)] :=
  c7_checksum_error badTrailerState (mkCmd WRIT_TAG 0 2)
    (by decide) (by decide) (by decide)

theorem fileReadBytes_length (f : DFile) (pos len : Nat) :
    (fileReadBytes f pos len).length = min len (f.size - pos) := by
  unfold fileReadBytes
  rw [List.length_map, List.length_range]

/-- Claim C8 (amended): after the STAT response, the READ track payload
and the WRIT phase-1 response the inactivity timer is re-armed within
the same handling step, but the WSTA phase-2 response (writeTrack) is
transmitted without re-arming it. -/
theorem c8_amended :
    (∀ s c, FEvent.timerStart FDC_TIMEOUT ∈ (statResponse s c).2) ∧
    (∀ s c, c.param1 / 4096 < MAX_DRIVE →
        FEvent.timerStart FDC_TIMEOUT ∈ (readTrack s c).2) ∧
    (∀ s c, c.param1 / 4096 < MAX_DRIVE →
        FEvent.timerStart FDC_TIMEOUT ∈ (writeResponse s c).2) ∧
    (∀ s c, FEvent.timerStart FDC_TIMEOUT ∉ (writeTrack s c).2) := by
  refine ⟨?_, ?_, ?_, ?_⟩
  · intro s c
    unfold statResponse
    dsimp only
    split <;> simp
  · intro s c hd
    unfold readTrack
    dsimp only
    rw [if_neg (show ¬ MAX_DRIVE ≤ c.param1 / 4096 by omega)]
    simp
  · intro s c hd
    unfold writeResponse
    dsimp only
    rw [if_neg (show ¬ MAX_DRIVE ≤ c.param1 / 4096 by omega)]
    simp
  · intro s c
    unfold writeTrack
    dsimp only
    split
    · simp
    · simp only [List.mem_append, not_or]
      constructor
      · split
        · simp
        · split
          · simp
          · exact updateTrack_no_timer _ _ _ _
      · simp

/-- Claim C8 witness: the amended theorem applied to concrete frames. -/
theorem c8_amended_witness :
    FEvent.timerStart FDC_TIMEOUT ∈ (statResponse initState (mkCmd STAT_TAG 65535 0)).2 ∧
    FEvent.timerStart FDC_TIMEOUT ∈ (readTrack shortReadState (mkCmd READ_TAG 0 2)).2 ∧
    FEvent.timerStart FDC_TIMEOUT ∈ (writeResponse initState (mkCmd WRIT_TAG 0 2)).2 ∧
    FEvent.timerStart FDC_TIMEOUT ∉ (writeTrack initState (mkCmd WRIT_TAG 0 2)).2 :=
  ⟨c8_amended.1 initState (mkCmd STAT_TAG 65535 0),
   c8_amended.2.1 shortReadState (mkCmd READ_TAG 0 2) (by decide),
   c8_amended.2.2.1 initState (mkCmd WRIT_TAG 0 2) (by decide),
   c8_amended.2.2.2 initState (mkCmd WRIT_TAG 0 2)⟩

/-- Claim C9 (amended): for a READ on a mounted in-range drive whose
backing-file read returns fewer than trackLen bytes, the server still
transmits trackLen bytes (the bytes read, then stale outBuf contents)
but appends the 16-bit trailer 0: the checksum is computed only when
the read returns exactly trackLen bytes. -/
theorem c9_amended (s : FDCState) (c : FdcCommand)
    (hd : c.param1 / 4096 < MAX_DRIVE)
    (hp2 : c.param2 ≤ TRKBUF_SIZE) (hp2pos : 0 < c.param2)
    (hopen : (s.driveFile (c.param1 / 4096)).isOpen = true)
    (hout : s.outBuf.length = TRKBUF_SIZE + CRC_LEN)
    (hshort : (s.driveFile (c.param1 / 4096)).size
        < (c.param1 % 4096) * c.param2 + c.param2) :
    writesOf (readTrack s c).2
      = [(readTrack s c).1.outBuf.take c.param2, le16 0] ∧
    ((readTrack s c).1.outBuf.take c.param2).length = c.param2 := by
  have hp232 : c.param2 < 32768 := by
    unfold TRKBUF_SIZE at hp2
    omega
  unfold readTrack
  dsimp only
  rw [if_neg (show ¬ MAX_DRIVE ≤ c.param1 / 4096 by omega)]
  rw [toInt16_of_lt c.param2 hp232]
  rw [if_neg (show ¬ (((c.param2 : Nat) : Int) < 0
      ∨ ((TRKBUF_SIZE + CRC_LEN : Nat) : Int) < ((c.param2 : Nat) : Int)) by
    have e1 : TRKBUF_SIZE = 4384 := rfl
    have e2 : CRC_LEN = 2 := rfl
    push_cast
    omega)]
  rw [Int.toNat_natCast]
  rw [updateTrack_track_open s (c.param1 / 4096) (c.param1 % 4096) hd hopen]
  rw [updateTrack_driveFile, updateTrack_outBuf]
  have hbr : min c.param2
      ((s.driveFile (c.param1 / 4096)).size - c.param1 % 4096 * c.param2)
      ≠ c.param2 := by omega
  rw [if_pos hbr]
  have hrb : (fileReadBytes (s.driveFile (c.param1 / 4096))
      (c.param1 % 4096 * c.param2) c.param2).length
      = min c.param2
        ((s.driveFile (c.param1 / 4096)).size - c.param1 % 4096 * c.param2) :=
    fileReadBytes_length _ _ _
  constructor
  · rw [writesOf_append, updateTrack_writesOf]
    unfold writesOf
    simp
  · rw [List.length_take, List.length_append, List.length_drop, hrb, hout]
    have e1 : TRKBUF_SIZE = 4384 := rfl
    have e2 : CRC_LEN = 2 := rfl
    omega

/-- Claim C9 witness: the amended theorem at the concrete short-read
state (drive 0, one-byte file, READ of two bytes from track 0). -/
theorem c9_amended_witness :
    writesOf (readTrack shortReadState (mkCmd READ_TAG 0 2)).2
      = [(readTrack shortReadState (mkCmd READ_TAG 0 2)).1.outBuf.take 2, le16 0] ∧
    ((readTrack shortReadState (mkCmd READ_TAG 0 2)).1.outBuf.take 2).length = 2 :=
  c9_amended shortReadState (mkCmd READ_TAG 0 2)
    (by decide) (by decide) (by decide) (by decide)
    (by simp [shortReadState, initState]) (by decide)

/-- Claim C1 (amended): in the write-payload state, a burst that fits
the staging buffer either brings the total to exactly
TRKBUF_SIZE + CRC_LEN = 4386 bytes - in which case readData copies the
buffer to inBuf, invokes the WSTA handler (writeTrack) on the command
remembered in cmdBuf and returns to STATE_CMD - or leaves the framer
accumulating in the write-payload state with no event; the remembered
trackLen plays no role in the threshold. -/
theorem c1_amended (s : FDCState) (inc : List Nat)
    (hstate : s.state = STATE_WRIT)
    (hcap : inc.length ≤ (TRKBUF_SIZE + CRC_LEN) - s.tmpBuf.length) :
    ((s.tmpBuf ++ inc).length = TRKBUF_SIZE + CRC_LEN →
      readData s inc =
        (let s1 := { s with tmpBuf := s.tmpBuf ++ inc, inBuf := s.tmpBuf ++ inc }
         let w := writeTrack s1 (parseCmd s.cmdBuf)
         ({ w.1 with tmpBuf := [], state := STATE_CMD }, w.2))) ∧
    ((s.tmpBuf ++ inc).length ≠ TRKBUF_SIZE + CRC_LEN →
      readData s inc = ({ s with tmpBuf := s.tmpBuf ++ inc }, [])) := by
  have hs1 : ¬ (s.state = STATE_CMD) := by
    rw [hstate]
    unfold STATE_WRIT STATE_CMD
    omega
  constructor
  · intro hlen
    unfold readData
    dsimp only
    rw [if_neg (by omega)]
    rw [if_neg hs1, if_pos hstate, if_pos hlen]
  · intro hlen
    unfold readData
    dsimp only
    rw [if_neg (by omega)]
    rw [if_neg hs1, if_pos hstate, if_neg hlen]

/-- Claim C1 witness: the amended theorem at the concrete waiting state
(drive 1, track 10, trackLen 137 remembered) fed exactly 4386 bytes. -/
theorem c1_amended_witness :
    readData c1State (List.replicate 4386 0) =
      (let s1 := { c1State with
          tmpBuf := c1State.tmpBuf ++ List.replicate 4386 0
          inBuf := c1State.tmpBuf ++ List.replicate 4386 0 }
       let w := writeTrack s1 (parseCmd c1State.cmdBuf)
       ({ w.1 with tmpBuf := [], state := STATE_CMD }, w.2)) :=
  (c1_amended c1State (List.replicate 4386 0) rfl
      (by rw [show c1State.tmpBuf = [] from rfl, List.length_replicate]
          decide)).1
    (by rw [show c1State.tmpBuf = [] from rfl, List.nil_append,
            List.length_replicate]
        decide)

theorem mkCmd_param1 (tag : List Nat) (p1 p2 : Nat) :
    (mkCmd tag p1 p2).param1 = p1 := rfl

theorem mkCmd_param2 (tag : List Nat) (p1 p2 : Nat) :
    (mkCmd tag p1 p2).param2 = p2 := rfl

theorem fileWrite_isOpen (f : DFile) (pos : Nat) (bytes : List Nat) :
    (fileWrite f pos bytes).isOpen = f.isOpen := rfl

theorem fileWrite_size (f : DFile) (pos : Nat) (bytes : List Nat) :
    (fileWrite f pos bytes).size = max f.size (pos + bytes.length) := rfl

/-- Taking the payload length off a buffer that starts with the payload
returns the payload. -/
theorem take_len_of_inBuf (payload rest2 : List Nat) (len : Nat)
    (hplen : payload.length = len) :
    (payload ++ rest2).take len = payload := by
  rw [← hplen]
  rw [List.take_append_of_le_length (Nat.le_refl _)]
  exact List.take_length payload

/-- The 16-bit trailer extracted at indices len, len + 1 of a buffer
laid out as payload ++ le16 checksum ++ rest is that checksum. -/
theorem trailer_of_inBuf (payload rest : List Nat) (len : Nat)
    (hplen : payload.length = len) :
    wstaTrailer (payload ++ le16 (checkSum payload) ++ rest) len
      = checkSum payload := by
  unfold wstaTrailer
  rw [List.append_assoc]
  rw [List.getD_append_right payload (le16 (checkSum payload) ++ rest) 0 len
      (by omega)]
  rw [List.getD_append_right payload (le16 (checkSum payload) ++ rest) 0
      (len + 1) (by omega)]
  rw [hplen, Nat.sub_self]
  have h1 : len + 1 - len = 1 := by omega
  rw [h1]
  unfold le16
  simp only [List.cons_append, List.getD_cons_zero, List.getD_cons_succ]
  have := checkSum_lt payload
  omega

/-- A WRIT phase 2 on a mounted in-range drive with a well-formed
payload (correct trailer) answers WSTA rcode OK and stores exactly the
payload bytes at offset trackNum * trackLen of that drive's file. -/
theorem writeTrack_ok (s : FDCState) (d t len : Nat)
    (payload rest : List Nat)
    (hd : d < MAX_DRIVE) (ht : t < 4096) (hlen : len ≤ TRKBUF_SIZE)
    (hopen : (s.driveFile d).isOpen = true)
    (hplen : payload.length = len)
    (hbuf : s.inBuf = payload ++ le16 (checkSum payload) ++ rest) :
    frameRcode (writeTrack s (mkCmd WRIT_TAG (d * 4096 + t) len)).1.cmdBuf
      = STAT_OK ∧
    (writeTrack s (mkCmd WRIT_TAG (d * 4096 + t) len)).1.driveFile d
      = fileWrite (s.driveFile d) (t * len) payload := by
  have e1 : TRKBUF_SIZE = 4384 := rfl
  have e2 : CRC_LEN = 2 := rfl
  have hdiv : (d * 4096 + t) / 4096 = d := by omega
  have hmod : (d * 4096 + t) % 4096 = t := by omega
  have hlen32 : len < 32768 := by omega
  have heq : wstaTrailer s.inBuf len = checkSum (s.inBuf.take (q16 ((len : Nat) : Int))) := by
    rw [q16_ofNat len (by omega), hbuf]
    rw [trailer_of_inBuf payload rest len hplen]
    rw [List.append_assoc, take_len_of_inBuf payload _ len hplen]
  unfold writeTrack
  dsimp only
  simp only [mkCmd_param1, mkCmd_param2]
  rw [hdiv, hmod]
  rw [toInt16_of_lt len hlen32]
  rw [Int.toNat_natCast]
  rw [if_neg (show ¬ MAX_DRIVE ≤ d by omega)]
  rw [if_neg (show ¬ ((s.driveFile d).isOpen = false) by rw [hopen]; simp)]
  rw [if_neg (not_ne_iff.mpr heq)]
  rw [if_neg (show ¬ (((len : Nat) : Int) < 0
      ∨ ((TRKBUF_SIZE + CRC_LEN : Nat) : Int) < ((len : Nat) : Int)) by
    push_cast
    omega)]
  rw [updateTrack_track_open s d t hd hopen]
  rw [updateTrack_driveFile]
  rw [hbuf, List.append_assoc, take_len_of_inBuf payload _ len hplen]
  rw [hplen]
  rw [if_neg (not_ne_iff.mpr rfl)]
  constructor
  · exact frameRcode_frameBytes _
      (show ([87, 83, 84, 65] : List Nat).length = 4 from rfl)
      (show (0 : Nat) < 65536 by omega)
  · dsimp only
    rw [if_pos rfl]

/-- A READ of an in-range mounted drive whose backing file fully covers
the requested track transmits exactly the stored track bytes followed
by their little-endian sum16. -/
theorem readTrack_full (s : FDCState) (d t len : Nat) (payload : List Nat)
    (hd : d < MAX_DRIVE) (ht : t < 4096) (hlen : len ≤ TRKBUF_SIZE)
    (hopen : (s.driveFile d).isOpen = true)
    (hplen : payload.length = len)
    (hread : fileReadBytes (s.driveFile d) (t * len) len = payload)
    (hsize : t * len + len ≤ (s.driveFile d).size) :
    writesOf (readTrack s (mkCmd READ_TAG (d * 4096 + t) len)).2
      = [payload, le16 (checkSum payload)] := by
  have e1 : TRKBUF_SIZE = 4384 := rfl
  have e2 : CRC_LEN = 2 := rfl
  have hdiv : (d * 4096 + t) / 4096 = d := by omega
  have hmod : (d * 4096 + t) % 4096 = t := by omega
  have hlen32 : len < 32768 := by omega
  unfold readTrack
  dsimp only
  simp only [mkCmd_param1, mkCmd_param2]
  rw [hdiv, hmod]
  rw [toInt16_of_lt len hlen32]
  rw [if_neg (show ¬ MAX_DRIVE ≤ d by omega)]
  rw [if_neg (show ¬ (((len : Nat) : Int) < 0
      ∨ ((TRKBUF_SIZE + CRC_LEN : Nat) : Int) < ((len : Nat) : Int)) by
    push_cast
    omega)]
  rw [Int.toNat_natCast]
  rw [updateTrack_track_open s d t hd hopen]
  rw [updateTrack_driveFile, updateTrack_outBuf]
  have hbr : min len ((s.driveFile d).size - t * len) = len := by omega
  rw [hbr]
  rw [if_neg (not_ne_iff.mpr rfl)]
  rw [hread]
  rw [take_len_of_inBuf payload _ len hplen]
  rw [writesOf_append, updateTrack_writesOf]
  unfold writesOf
  simp

/-- Claim C2: for a mounted in-range drive d and track t, after a WRIT
phase 2 that completes with WSTA rcode OK on a payload of trackLen
bytes with matching sum16 trailer, a READ of (d, t, trackLen) transmits
exactly those payload bytes followed by their sum16 as a little-endian
trailer. -/
theorem c2_writ_read_roundtrip (s : FDCState) (d t len : Nat)
    (payload rest : List Nat)
    (hd : d < MAX_DRIVE) (ht : t < 4096) (hlen : len ≤ TRKBUF_SIZE)
    (hopen : (s.driveFile d).isOpen = true)
    (hplen : payload.length = len)
    (hbuf : s.inBuf = payload ++ le16 (checkSum payload) ++ rest) :
    frameRcode (writeTrack s (mkCmd WRIT_TAG (d * 4096 + t) len)).1.cmdBuf
      = STAT_OK ∧
    writesOf (readTrack (writeTrack s (mkCmd WRIT_TAG (d * 4096 + t) len)).1
        (mkCmd READ_TAG (d * 4096 + t) len)).2
      = [payload, le16 (checkSum payload)] := by
  obtain ⟨hrc, hfile⟩ :=
    writeTrack_ok s d t len payload rest hd ht hlen hopen hplen hbuf
  refine ⟨hrc, ?_⟩
  apply readTrack_full _ d t len payload hd ht hlen
  · rw [hfile, fileWrite_isOpen]
    exact hopen
  · exact hplen
  · rw [hfile, ← hplen]
    exact fileReadBytes_fileWrite _ _ _
  · rw [hfile, fileWrite_size, hplen]
    omega

/-- Claim C2 witness: drive 0, track 3, payload 1, 2 (trackLen 2) with
its correct trailer 3 staged in inBuf, written then read back. -/
theorem c2_writ_read_roundtrip_witness :
    frameRcode (writeTrack c2State (mkCmd WRIT_TAG 3 2)).1.cmdBuf = STAT_OK ∧
    writesOf (readTrack (writeTrack c2State (mkCmd WRIT_TAG 3 2)).1
        (mkCmd READ_TAG 3 2)).2
      = [[1, 2], le16 (checkSum [1, 2])] :=
  c2_writ_read_roundtrip c2State 0 3 2 [1, 2] []
    (by decide) (by decide) (by decide) (by decide) (by decide) (by decide)

/-! ## Invariant preservation (claim C5) -/

theorem statResponse_driveFile (s : FDCState) (c : FdcCommand) :
    (statResponse s c).1.driveFile = s.driveFile := by
  unfold statResponse
  dsimp only
  split <;> rfl

theorem statResponse_curTrack (s : FDCState) (c : FdcCommand) :
    (statResponse s c).1.curTrack = s.curTrack := by
  unfold statResponse
  dsimp only
  split <;> rfl

theorem statHandler_inv (s : FDCState) (c : FdcCommand) (h : Inv s) :
    Inv (statHandler s c).1 := by
  unfold statHandler
  dsimp only
  repeat' split
  all_goals
    refine Inv_of_fields _ _ (statResponse_driveFile _ _)
      (statResponse_curTrack _ _) ?_
  all_goals
    first
      | exact updateTrack_inv _ _ _ h
      | exact fun d hd hcl => h d hd hcl

theorem readTrack_inv (s : FDCState) (c : FdcCommand) (h : Inv s) :
    Inv (readTrack s c).1 := by
  unfold readTrack
  dsimp only
  split
  · exact h
  · exact updateTrack_inv s (c.param1 / 4096) (c.param1 % 4096) h

theorem writeResponse_inv (s : FDCState) (c : FdcCommand) (h : Inv s) :
    Inv (writeResponse s c).1 := by
  unfold writeResponse
  dsimp only
  split
  · exact h
  · exact fun d hd hcl => h d hd hcl

theorem writeTrack_inv (s : FDCState) (c : FdcCommand) (h : Inv s) :
    Inv (writeTrack s c).1 := by
  unfold writeTrack
  dsimp only
  split
  · exact h
  · split
    · exact fun d hd hcl => h d hd hcl
    · split
      · exact fun d hd hcl => h d hd hcl
      · rename_i hopen hcs
        simp only [Bool.not_eq_false] at hopen
        intro dd hdd hcl
        dsimp only at hcl ⊢
        by_cases hdn : dd = c.param1 / 4096
        · rw [if_pos hdn] at hcl
          rw [fileWrite_isOpen, updateTrack_driveFile] at hcl
          rw [hopen] at hcl
          cases hcl
        · rw [if_neg hdn] at hcl
          rw [updateTrack_driveFile] at hcl
          exact updateTrack_inv s (c.param1 / 4096) (c.param1 % 4096) h dd hdd
            (by rw [updateTrack_driveFile]; exact hcl)

/-- Claim C5 (amended): the invariant (unmounted implies curTrack 0) is
preserved by every core operation except a mountDisk whose open fails
on a currently mounted drive with nonzero current track; with that case
excluded by the hypothesis, every step preserves the invariant. -/
theorem c5_amended (s : FDCState) (op : CoreOp) (hInv : Inv s)
    (hmount : ∀ dr fn fs fd, op = CoreOp.mount dr fn false fs fd →
        (s.driveFile dr).isOpen = true → s.curTrack dr = 0) :
    Inv (stepOp s op).1 := by
  cases op with
  | mount dr fn ok fs fd =>
    unfold stepOp mountDisk
    dsimp only
    by_cases hdropen : (s.driveFile dr).isOpen = true
    · rw [if_pos hdropen]
      by_cases hok : ok = true
      · subst hok
        rw [if_pos rfl]
        apply updateTrack_inv
        intro dd hdd hcl
        dsimp only at hcl ⊢
        by_cases hda : dd = dr
        · rw [if_pos hda] at hcl
          cases hcl
        · rw [if_neg hda] at hcl
          rw [if_neg hda] at hcl
          exact hInv dd hdd hcl
      · have hok2 : ok = false := by
          cases ok
          · rfl
          · exact absurd rfl hok
        subst hok2
        rw [if_neg (by simp)]
        intro dd hdd hcl
        dsimp only at hcl ⊢
        by_cases hda : dd = dr
        · subst hda
          exact hmount dd fn fs fd rfl hdropen
        · rw [if_neg hda] at hcl
          exact hInv dd hdd hcl
    · rw [if_neg hdropen]
      by_cases hok : ok = true
      · subst hok
        rw [if_pos rfl]
        apply updateTrack_inv
        intro dd hdd hcl
        dsimp only at hcl ⊢
        by_cases hda : dd = dr
        · rw [if_pos hda] at hcl
          cases hcl
        · rw [if_neg hda] at hcl
          exact hInv dd hdd hcl
      · have hok2 : ok = false := by
          cases ok
          · rfl
          · exact absurd rfl hok
        subst hok2
        rw [if_neg (by simp)]
        exact fun dd hdd hcl => hInv dd hdd hcl
  | unmount dr =>
    unfold stepOp unmountDisk
    dsimp only
    split
    · rename_i hop
      intro dd hdd hcl
      dsimp only at hcl ⊢
      by_cases hda : dd = dr
      · subst hda
        rw [updateTrack_curTrack]
        rw [if_neg (by omega), if_pos rfl, hop]
        simp
      · rw [if_neg hda] at hcl
        rw [updateTrack_driveFile] at hcl
        exact updateTrack_inv s dr 0 hInv dd hdd
          (by rw [updateTrack_driveFile]; exact hcl)
    · exact fun dd hdd hcl => hInv dd hdd hcl
  | statFrame c => exact statHandler_inv s c hInv
  | readFrame c => exact readTrack_inv _ c hInv
  | writFrame c => exact writeResponse_inv s c hInv
  | payload bytes => exact writeTrack_inv _ _ hInv

/-- Claim C5 witness: the amended preservation theorem applied to the
initial state and an unmount of drive 0. -/
theorem c5_amended_witness : Inv (stepOp initState (CoreOp.unmount 0)).1 :=
  c5_amended initState (CoreOp.unmount 0)
    (fun d hd hcl => rfl)
    (fun dr fn fs fd hop => nomatch hop)

end FDCServer
